import Mathlib

/-!
Verification of the morph_gen replacement-map generator (src/morph_gen.py).

Words are modelled as lists of characters (`Word`); Python's Unicode case
operations are modelled for the Cyrillic and ASCII ranges the program
processes.  Fallible code (the heuristic decliner) returns `Except`;
the analyzer-backed target-form matching is abstracted as an `Except`
parameter since the analyzer is an external collaborator.
-/

set_option maxRecDepth 4000

abbrev Word := List Char

deriving instance DecidableEq for Except

/-- Python `str.upper` for a single character, modelled for the Cyrillic
(а–я, ё) and ASCII (a–z) ranges that occur in the program's data. -/
def chUpper (c : Char) : Char :=
  if 'а' ≤ c ∧ c ≤ 'я' then Char.ofNat (c.toNat - 32)
  else if c = 'ё' then 'Ё'
  else if 'a' ≤ c ∧ c ≤ 'z' then Char.ofNat (c.toNat - 32)
  else c

/-- Python `str.lower` for a single character (Cyrillic А–Я, Ё and ASCII A–Z). -/
def chLower (c : Char) : Char :=
  if 'А' ≤ c ∧ c ≤ 'Я' then Char.ofNat (c.toNat + 32)
  else if c = 'Ё' then 'ё'
  else if 'A' ≤ c ∧ c ≤ 'Z' then Char.ofNat (c.toNat + 32)
  else c

/-- Python `c.isupper()` for one character (Cyrillic and ASCII). -/
def chIsUpper (c : Char) : Bool :=
  decide (('А' ≤ c ∧ c ≤ 'Я') ∨ c = 'Ё' ∨ ('A' ≤ c ∧ c ≤ 'Z'))

/-- Python `c.islower()` for one character (Cyrillic and ASCII). -/
def chIsLower (c : Char) : Bool :=
  decide (('а' ≤ c ∧ c ≤ 'я') ∨ c = 'ё' ∨ ('a' ≤ c ∧ c ≤ 'z'))

/-- A character is cased (has an upper/lower distinction). -/
def isCased (c : Char) : Bool := chIsUpper c || chIsLower c

def lowerW (w : Word) : Word := w.map chLower

def upperW (w : Word) : Word := w.map chUpper

/-- Python `str.isupper()` on a whole string: at least one cased character
and every cased character uppercase. -/
def strIsUpper (w : Word) : Bool :=
  w.any isCased && w.all (fun c => !isCased c || chIsUpper c)

/-- Python `str.capitalize()`: first character uppercased, the rest lowercased. -/
def capitalizeW : Word → Word
  | [] => []
  | c :: cs => chUpper c :: cs.map chLower

/-- Python `text.split("-")` (keeps empty segments, `"" ↦ [""]`). -/
def splitHyphen : Word → List Word
  | [] => [[]]
  | c :: cs =>
    if c = '-' then [] :: splitHyphen cs
    else
      match splitHyphen cs with
      | [] => [[c]]
      | h :: t => (c :: h) :: t

/-- `pre p w` is Python `w.startswith(p)` (list prefix test). -/
def pre : Word → Word → Bool
  | [], _ => true
  | _ :: _, [] => false
  | a :: as, b :: bs => if a = b then pre as bs else false

/-- `ends w s` is Python `w.endswith(s)`. -/
def ends (w suf : Word) : Bool := pre suf.reverse w.reverse

/-- `isSubW p s` is Python `p in s` (contiguous substring test). -/
def isSubW (pat : Word) : Word → Bool
  | [] => pre pat []
  | c :: cs => pre pat (c :: cs) || isSubW pat cs

/-- Python `w[:-n]` (drop the last `n` characters). -/
def pyDropRight (w : Word) (n : Nat) : Word := w.take (w.length - n)

/-- Python `w[-1]` on a nonempty string (default is never used at call sites). -/
def lastChD (w : Word) : Char := w.getLastD ' '

/-- Python `w[-3]`, used only under a `length > 3` guard. -/
def antepenult (w : Word) : Char := w.reverse.getD 2 ' '

/-- Python `str.strip()` (leading and trailing whitespace removed). -/
def trimW (w : Word) : Word :=
  ((w.dropWhile Char.isWhitespace).reverse.dropWhile Char.isWhitespace).reverse

/-- `HUSH = set('гкхжчшщ')` — the velar/sibilant set of the source
(note: it does not contain 'ц'). -/
def HUSH : Word := "гкхжчшщ".data

/-- `apply_orthography(stem, ending)`: if either part is empty, plain
concatenation; else a leading 'ы' of the ending becomes 'и' after a
stem-final character from `HUSH`. -/
def apply_orthography (stem ending : Word) : Word :=
  match ending with
  | [] => stem ++ ending
  | first :: rest =>
    if stem = [] then stem ++ ending
    else if first = 'ы' ∧ HUSH.contains (lastChD stem) = true then stem ++ ('и' :: rest)
    else stem ++ ending

/-- `normalize_case_like(reference, text)`: reapply the reference's casing
pattern (acronym, capitalized hyphen-segments, or all-lowercase) to `text`. -/
def normalize_case_like (reference text : Word) : Word :=
  match reference with
  | [] => lowerW text
  | r0 :: _ =>
    if chIsUpper r0 = true then
      if strIsUpper reference = true ∧ 1 < reference.length then upperW text
      else List.intercalate ['-'] ((splitHyphen text).map capitalizeW)
    else lowerW text

/-- The vowel set of the fleeting-vowel guard (`'аяуюиыеёоэ'`). -/
def vowelsRu : Word := "аяуюиыеёоэ".data

/-- `NounDecliner.classify(word)`: the ordered suffix cascade of the source.
The source first tests a vowel gate `endswith(('у','ю','э','о','е','и'))`
whose body returns only for у/э and for и (not ии); every other vowel falls
through to the standard cascade, so the gate is equivalent to the two
flattened conditions that open the chain below. -/
def classify (word : Word) : Word × Word :=
  if ends word ['у'] = true ∨ ends word ['э'] = true then ("indeclinable".data, word)
  else if ends word ['и'] = true ∧ ends word ['и', 'и'] = false then ("indeclinable".data, word)
  else if ends word ['и', 'я'] = true then ("fem_ia".data, pyDropRight word 2)
  else if ends word ['и', 'е'] = true then ("neut_ie".data, pyDropRight word 2)
  else if ends word ['м', 'я'] = true then ("neut_mia".data, pyDropRight word 2)
  else if 3 < word.length ∧ ends word ['о', 'к'] = true ∧ vowelsRu.contains (antepenult word) = false then
    ("masc_fleeting_ok".data, pyDropRight word 2)
  else if 3 < word.length ∧ ends word ['о', 'л'] = true ∧ vowelsRu.contains (antepenult word) = false then
    ("masc_fleeting_ol".data, pyDropRight word 2)
  else if 3 < word.length ∧ ends word ['е', 'ц'] = true ∧ vowelsRu.contains (antepenult word) = false then
    ("masc_fleeting_ec".data, pyDropRight word 2)
  else if ends word ['а'] = true then ("fem_a".data, pyDropRight word 1)
  else if ends word ['я'] = true then ("fem_ya".data, pyDropRight word 1)
  else if ends word ['о'] = true then ("neut_o".data, pyDropRight word 1)
  else if ends word ['е'] = true then ("neut_e".data, pyDropRight word 1)
  else if ends word ['й'] = true then ("masc_y".data, pyDropRight word 1)
  else if ends word ['ь'] = true then
    (let stem := pyDropRight word 1
     if stem ≠ [] ∧ "жшчщ".data.contains (lastChD stem) = true then ("fem_soft".data, stem)
     else if ends word ['о', 'с', 'т', 'ь'] = true ∨ ends word ['е', 'с', 'т', 'ь'] = true ∨
             ends word ['з', 'н', 'ь'] = true ∨ ends word ['д', 'ь'] = true ∨
             ends word ['в', 'а', 'т', 'ь'] = true then ("fem_soft".data, stem)
     else ("masc_soft".data, stem))
  else ("masc_cons".data, word)

/-- Association-list lookup mirroring Python `dict.get`. -/
def alookup {α : Type} (l : List (Word × α)) (k : Word) : Option α :=
  (l.find? (fun p => p.1 == k)).map (·.2)

/-- The module-level `SCHEMAS` table, verbatim: for each declension class,
the `sing`/`plur` rows of case → ending (`none` at `accs` means "resolved
from animacy"). -/
def SCHEMAS : List (Word × List (Word × List (Word × Option Word))) := [
  ("masc_cons".data, [
    ("sing".data, [("nomn".data, some "".data), ("gent".data, some "а".data), ("datv".data, some "у".data),
                   ("accs".data, none), ("ablt".data, some "ом".data), ("loct".data, some "е".data)]),
    ("plur".data, [("nomn".data, some "ы".data), ("gent".data, some "ов".data), ("datv".data, some "ам".data),
                   ("accs".data, none), ("ablt".data, some "ами".data), ("loct".data, some "ах".data)])]),
  ("masc_fleeting_ok".data, [
    ("sing".data, [("nomn".data, some "ок".data), ("gent".data, some "ка".data), ("datv".data, some "ку".data),
                   ("accs".data, none), ("ablt".data, some "ком".data), ("loct".data, some "ке".data)]),
    ("plur".data, [("nomn".data, some "ки".data), ("gent".data, some "ков".data), ("datv".data, some "кам".data),
                   ("accs".data, none), ("ablt".data, some "ками".data), ("loct".data, some "ках".data)])]),
  ("masc_fleeting_ol".data, [
    ("sing".data, [("nomn".data, some "ол".data), ("gent".data, some "ла".data), ("datv".data, some "лу".data),
                   ("accs".data, none), ("ablt".data, some "лом".data), ("loct".data, some "ле".data)]),
    ("plur".data, [("nomn".data, some "лы".data), ("gent".data, some "лов".data), ("datv".data, some "лам".data),
                   ("accs".data, none), ("ablt".data, some "лами".data), ("loct".data, some "лах".data)])]),
  ("masc_y".data, [
    ("sing".data, [("nomn".data, some "й".data), ("gent".data, some "я".data), ("datv".data, some "ю".data),
                   ("accs".data, none), ("ablt".data, some "ем".data), ("loct".data, some "е".data)]),
    ("plur".data, [("nomn".data, some "и".data), ("gent".data, some "ев".data), ("datv".data, some "ям".data),
                   ("accs".data, none), ("ablt".data, some "ями".data), ("loct".data, some "ях".data)])]),
  ("masc_soft".data, [
    ("sing".data, [("nomn".data, some "ь".data), ("gent".data, some "я".data), ("datv".data, some "ю".data),
                   ("accs".data, none), ("ablt".data, some "ем".data), ("loct".data, some "е".data)]),
    ("plur".data, [("nomn".data, some "и".data), ("gent".data, some "ей".data), ("datv".data, some "ям".data),
                   ("accs".data, none), ("ablt".data, some "ями".data), ("loct".data, some "ях".data)])]),
  ("fem_a".data, [
    ("sing".data, [("nomn".data, some "а".data), ("gent".data, some "ы".data), ("datv".data, some "е".data),
                   ("accs".data, some "у".data), ("ablt".data, some "ой".data), ("loct".data, some "е".data)]),
    ("plur".data, [("nomn".data, some "ы".data), ("gent".data, some "".data), ("datv".data, some "ам".data),
                   ("accs".data, none), ("ablt".data, some "ами".data), ("loct".data, some "ах".data)])]),
  ("fem_ya".data, [
    ("sing".data, [("nomn".data, some "я".data), ("gent".data, some "и".data), ("datv".data, some "е".data),
                   ("accs".data, some "ю".data), ("ablt".data, some "ей".data), ("loct".data, some "е".data)]),
    ("plur".data, [("nomn".data, some "и".data), ("gent".data, some "ь".data), ("datv".data, some "ям".data),
                   ("accs".data, none), ("ablt".data, some "ями".data), ("loct".data, some "ях".data)])]),
  ("fem_ia".data, [
    ("sing".data, [("nomn".data, some "ия".data), ("gent".data, some "ии".data), ("datv".data, some "ии".data),
                   ("accs".data, some "ию".data), ("ablt".data, some "ией".data), ("loct".data, some "ии".data)]),
    ("plur".data, [("nomn".data, some "ии".data), ("gent".data, some "ий".data), ("datv".data, some "иям".data),
                   ("accs".data, none), ("ablt".data, some "иями".data), ("loct".data, some "иях".data)])]),
  ("neut_o".data, [
    ("sing".data, [("nomn".data, some "о".data), ("gent".data, some "а".data), ("datv".data, some "у".data),
                   ("accs".data, some "о".data), ("ablt".data, some "ом".data), ("loct".data, some "е".data)]),
    ("plur".data, [("nomn".data, some "а".data), ("gent".data, some "".data), ("datv".data, some "ам".data),
                   ("accs".data, some "а".data), ("ablt".data, some "ами".data), ("loct".data, some "ах".data)])]),
  ("neut_e".data, [
    ("sing".data, [("nomn".data, some "е".data), ("gent".data, some "я".data), ("datv".data, some "ю".data),
                   ("accs".data, some "е".data), ("ablt".data, some "ем".data), ("loct".data, some "е".data)]),
    ("plur".data, [("nomn".data, some "я".data), ("gent".data, some "ей".data), ("datv".data, some "ям".data),
                   ("accs".data, some "я".data), ("ablt".data, some "ями".data), ("loct".data, some "ях".data)])]),
  ("neut_ie".data, [
    ("sing".data, [("nomn".data, some "ие".data), ("gent".data, some "ия".data), ("datv".data, some "ию".data),
                   ("accs".data, some "ие".data), ("ablt".data, some "ием".data), ("loct".data, some "ии".data)]),
    ("plur".data, [("nomn".data, some "ия".data), ("gent".data, some "ий".data), ("datv".data, some "иям".data),
                   ("accs".data, some "ия".data), ("ablt".data, some "иями".data), ("loct".data, some "иях".data)])]),
  ("neut_mia".data, [
    ("sing".data, [("nomn".data, some "мя".data), ("gent".data, some "мени".data), ("datv".data, some "мени".data),
                   ("accs".data, some "мя".data), ("ablt".data, some "менем".data), ("loct".data, some "мени".data)]),
    ("plur".data, [("nomn".data, some "мена".data), ("gent".data, some "мен".data), ("datv".data, some "менам".data),
                   ("accs".data, some "мена".data), ("ablt".data, some "менами".data), ("loct".data, some "менах".data)])]),
  ("fem_soft".data, [
    ("sing".data, [("nomn".data, some "ь".data), ("gent".data, some "и".data), ("datv".data, some "и".data),
                   ("accs".data, some "ь".data), ("ablt".data, some "ью".data), ("loct".data, some "и".data)]),
    ("plur".data, [("nomn".data, some "и".data), ("gent".data, some "ей".data), ("datv".data, some "ям".data),
                   ("accs".data, none), ("ablt".data, some "ями".data), ("loct".data, some "ях".data)])])]

/-- Python `decl_type in SCHEMAS`. -/
def SCHEMAS_contains (dt : Word) : Bool := (alookup SCHEMAS dt).isSome

/-- Python `SCHEMAS[decl_type].get(number)`. -/
def schemaGet (dt number : Word) : Option (List (Word × Option Word)) :=
  (alookup SCHEMAS dt).bind (fun rows => alookup rows number)

/-- A pymorphy3 morphological tag, reduced to its grammeme set (the only
part of the tag object `decline` inspects). -/
structure Tag where
  grammemes : List Word
deriving DecidableEq

/-- `get_v_markers(tag)`: grammemes starting with `"V-"`. -/
def vMarkers (t : Tag) : List Word := t.grammemes.filter (fun g => pre "V-".data g)

/-- The failure modes of `NounDecliner.decline` (the source raises
`RuntimeError` with corresponding messages). -/
inductive DeclErr where
  | unsupportedDeclension
  | unsupportedNumber
  | noEndingFound
deriving DecidableEq

/-- `NounDecliner.decline(lemma, case, number, animate, src_tag)`
(`lem` is the source's `lemma` argument; `lemma` is a Lean keyword). -/
def decline (lem c number : Word) (animate : Bool) (src_tag : Option Tag) :
    Except DeclErr Word :=
  -- case normalization: {'gen2': 'gent', 'loc2': 'loct', 'voct': 'nomn'}
  let c1 := if c = "gen2".data then "gent".data
            else if c = "loc2".data then "loct".data
            else if c = "voct".data then "nomn".data else c
  let dt := (classify lem).1
  let stem := (classify lem).2
  if SCHEMAS_contains dt = false then
    if dt = "indeclinable".data then Except.ok stem
    else Except.error DeclErr.unsupportedDeclension
  else if schemaGet dt number = none then Except.error DeclErr.unsupportedNumber
  else
    let row := (schemaGet dt number).getD []
    -- base ending (Python dict .get: a missing key and an explicit None coincide)
    let ending0 := (alookup row c1).join
    -- special case: genitive plural of fem_ya with a masculine source tag
    let srcMasc : Bool := match src_tag with
                          | some t => t.grammemes.contains "masc".data
                          | none => false
    let ending1 := if dt = "fem_ya".data ∧ number = "plur".data ∧ c1 = "gent".data ∧ srcMasc = true
                   then some "ей".data else ending0
    -- accusative resolved from animacy when the schema entry is None
    let ending2 := if c1 = "accs".data ∧ ending1 = none
                   then (alookup row (if animate then "gent".data else "nomn".data)).join
                   else ending1
    -- V-marker variants in the instrumental
    let vm := match src_tag with | some t => vMarkers t | none => []
    let ending3 := if c1 = "ablt".data then
        (if dt = "fem_a".data ∧ vm.contains "V-oy".data = true then some "ою".data
         else if dt = "fem_ya".data ∧ vm.contains "V-ey".data = true then some "ею".data
         else if dt = "fem_ia".data ∧ vm.contains "V-ieyu".data = true then some "иею".data
         else ending2)
      else ending2
    match ending3 with
    | none => Except.error DeclErr.noEndingFound
    | some e => Except.ok (apply_orthography stem e)

/-- One generated row (`FormRow` dataclass of the source). -/
structure FormRow where
  source : Word
  target : Word
  tag : Word
deriving DecidableEq

/-- The manual-decliner attempt inside `PairGenerator.generate`:
only for nouns whose target is unknown to the dictionary, only when the
source form has both a case and a number, and a raise inside `decline`
is swallowed (`except: pass`), leaving the list empty. -/
def declinerAttempt (pos : Word) (target_is_known : Bool) (tcase tnumber : Option Word)
    (target_lemma : Word) (animate : Bool) (tag : Tag) : List Word :=
  if pos = "NOUN".data ∧ target_is_known = false then
    match tcase, tnumber with
    | some c, some n =>
      if c ≠ [] ∧ n ≠ [] then
        match decline target_lemma c n animate (some tag) with
        | Except.ok w => [w]
        | Except.error _ => []
      else []
    | _, _ => []
  else []

/-- The fallback chain of `generate` for one source form: if the decliner
produced nothing, use the target-form matching result; if the matcher
raised, degrade to the literal target lemma.  The matcher
(`get_target_forms`) consults the external analyzer, so its outcome is an
`Except` parameter. -/
def formTargetWords (declined : List Word) (matchRes : Except Unit (List Word))
    (target_lemma : Word) : List Word :=
  if declined = [] then
    match matchRes with
    | Except.ok ws => ws
    | Except.error _ => [target_lemma]
  else declined

/-- The row-emission loop of `generate` for one source form: casing-normalize
each target word against the target lemma, deduplicate by
(source, target, tag) via `seen`, and append a `FormRow`. -/
def emitRows (target_lemma sfWord tagStr : Word) (target_words : List Word)
    (st : List (Word × Word × Word) × List FormRow) :
    List (Word × Word × Word) × List FormRow :=
  target_words.foldl (fun acc tw =>
    let final_tgt := normalize_case_like target_lemma tw
    let key := (sfWord, final_tgt, tagStr)
    if key ∈ acc.1 then acc
    else (key :: acc.1, acc.2 ++ [FormRow.mk sfWord final_tgt tagStr])) st

/-- `CASE_PRIORITY`, in the source's iteration order. -/
def CASE_PRIORITY : List (Word × Nat) :=
  [("nomn".data, 10), ("gent".data, 9), ("datv".data, 8), ("ablt".data, 7), ("loct".data, 6),
   ("accs".data, 5), ("voct".data, 4), ("loc2".data, 3), ("gen2".data, 2)]

/-- `get_form_priority(tag)`: the priority of the first case code of
`CASE_PRIORITY` found as a substring of the tag text (0 if none), plus a
+20 bonus when 'sing' occurs in the tag. -/
def get_form_priority (tag_str : Word) : Nat :=
  let prio := match CASE_PRIORITY.find? (fun cp => isSubW cp.1 tag_str) with
              | some cp => cp.2
              | none => 0
  if isSubW "sing".data tag_str then prio + 20 else prio

/-- The replacement map with priorities (`replacements_prio_map`). -/
abbrev PrioMap := Word → Option (Word × Nat)

def emptyMap : PrioMap := fun _ => none

/-- One generated row's update of the priority map (the body of the
`for form in res['forms']` loop in `main`): keys are lowercased, a fresh
key is inserted at the row's priority, an existing key is overwritten only
when the new priority is strictly greater. -/
def rowUpdateCore (m : PrioMap) (src_word tgt_word : Word) (new_prio : Nat) :
    Option (Word × Nat) → PrioMap
  | none => fun k => if k = src_word then some (tgt_word, new_prio) else m k
  | some (_, cur_prio) =>
    if new_prio > cur_prio then
      (fun k => if k = src_word then some (tgt_word, new_prio) else m k)
    else m

def rowUpdate (m : PrioMap) (row : FormRow) : PrioMap :=
  rowUpdateCore m (lowerW row.source) row.target (get_form_priority row.tag)
    (m (lowerW row.source))

/-- One input record of the rules file ({source, target}, possibly missing). -/
structure Record where
  source : Option Word
  target : Option Word
deriving DecidableEq

/-- The per-record body of `main`'s loop: skip when either field is missing
or empty (the truthiness check happens before `strip()`), then trim, seed
the literal pair at priority 0 when the lowercased source key is fresh, and
process the generated rows (an abstract parameter, since generation
consults the analyzer; a skipped generation is the empty list). -/
def processRecord (m : PrioMap) (r : Record) (rows : List FormRow) : PrioMap :=
  match r with
  | Record.mk (some s0) (some t0) =>
    if s0 = [] ∨ t0 = [] then m
    else
      let s := trimW s0
      let t := trimW t0
      let s_lower := lowerW s
      let t_aligned := normalize_case_like t t
      let m1 : PrioMap :=
        if m s_lower = none then (fun k => if k = s_lower then some (t_aligned, 0) else m k)
        else m
      rows.foldl rowUpdate m1
  | _ => m

/-- The whole collision-resolution run of `main` over the input records,
each paired with the rows its generation produced. -/
def runPairs (m : PrioMap) (entries : List (Record × List FormRow)) : PrioMap :=
  entries.foldl (fun m e => processRecord m e.1 e.2) m

/-! ## Helper lemmas -/

theorem pre_true_cases {a : Char} {as l : Word} (h : pre (a :: as) l = true) :
    ∃ l', l = a :: l' ∧ pre as l' = true := by
  cases l with
  | nil => simp [pre] at h
  | cons b bs =>
    by_cases hab : a = b
    · subst hab; exact ⟨bs, rfl, by simpa [pre] using h⟩
    · simp [pre, hab] at h

theorem trimW_nil : trimW [] = [] := rfl

/-- The characterization of one priority-map update at a key that is
already present. -/
theorem rowUpdate_apply (m : PrioMap) (row : FormRow) (k v : Word) (p : Nat)
    (h : m k = some (v, p)) :
    rowUpdate m row k =
      if k = lowerW row.source ∧ p < get_form_priority row.tag
      then some (row.target, get_form_priority row.tag)
      else some (v, p) := by
  by_cases hk : k = lowerW row.source
  · subst hk
    unfold rowUpdate
    rw [h]
    by_cases hgt : p < get_form_priority row.tag
    · rw [if_pos ⟨rfl, hgt⟩]
      simp only [rowUpdateCore, gt_iff_lt, hgt, if_true, if_pos rfl]
    · rw [if_neg (fun hc => hgt hc.2)]
      simp only [rowUpdateCore, gt_iff_lt, hgt, if_false]
      exact h
  · rw [if_neg (fun hc => hk hc.1)]
    unfold rowUpdate
    cases hms : m (lowerW row.source) with
    | none => simp only [rowUpdateCore, hk, if_false]; exact h
    | some vp =>
      rcases vp with ⟨v', p'⟩
      by_cases hgt : get_form_priority row.tag > p'
      · simp only [rowUpdateCore, hgt, if_true, hk, if_false]; exact h
      · simp only [rowUpdateCore, hgt, if_false]; exact h

theorem rowUpdate_isSome {m : PrioMap} {row : FormRow} {k : Word}
    (h : (m k).isSome = true) : ((rowUpdate m row) k).isSome = true := by
  unfold rowUpdate
  cases hms : m (lowerW row.source) with
  | none =>
    by_cases hk : k = lowerW row.source
    · simp [rowUpdateCore, hk]
    · simp only [rowUpdateCore, hk, if_false]; exact h
  | some vp =>
    rcases vp with ⟨v', p'⟩
    by_cases hgt : get_form_priority row.tag > p'
    · simp only [rowUpdateCore, hgt, if_true]
      by_cases hk : k = lowerW row.source
      · simp [hk]
      · simp only [hk, if_false]; exact h
    · simp only [rowUpdateCore, hgt, if_false]; exact h

theorem foldlRows_isSome (rows : List FormRow) :
    ∀ (m : PrioMap) (k : Word), (m k).isSome = true →
      ((rows.foldl rowUpdate m) k).isSome = true := by
  induction rows with
  | nil => intro m k h; exact h
  | cons row rs ih => intro m k h; exact ih _ _ (rowUpdate_isSome h)

theorem processRecord_isSome {r : Record} {rows : List FormRow} {m : PrioMap} {k : Word}
    (h : (m k).isSome = true) : ((processRecord m r rows) k).isSome = true := by
  rcases r with ⟨os, ot⟩
  cases os with
  | none => exact h
  | some s0 =>
    cases ot with
    | none => exact h
    | some t0 =>
      simp only [processRecord]
      by_cases hst : s0 = [] ∨ t0 = []
      · rw [if_pos hst]; exact h
      · rw [if_neg hst]
        apply foldlRows_isSome
        by_cases hseed : m (lowerW (trimW s0)) = none
        · rw [if_pos hseed]
          by_cases hk : k = lowerW (trimW s0)
          · simp [hk]
          · simp only [hk, if_false]; exact h
        · rw [if_neg hseed]; exact h

theorem runPairs_isSome (entries : List (Record × List FormRow)) :
    ∀ (m : PrioMap) (k : Word), (m k).isSome = true →
      ((runPairs m entries) k).isSome = true := by
  induction entries with
  | nil => intro m k h; exact h
  | cons e es ih =>
    intro m k h
    exact ih _ _ (processRecord_isSome h)

theorem processRecord_seeds_key {m : PrioMap} {rows : List FormRow} (r : Record)
    (s0 t0 : Word) (hs : r.source = some s0) (ht : r.target = some t0)
    (hs0 : s0 ≠ []) (ht0 : t0 ≠ []) :
    ((processRecord m r rows) (lowerW (trimW s0))).isSome = true := by
  rcases r with ⟨os, ot⟩
  cases hs; cases ht
  simp only [processRecord]
  rw [if_neg (by rintro (h | h); exact hs0 h; exact ht0 h)]
  apply foldlRows_isSome
  by_cases hseed : m (lowerW (trimW s0)) = none
  · rw [if_pos hseed, if_pos rfl]; rfl
  · rw [if_neg hseed]
    exact Option.isSome_iff_ne_none.mpr hseed

/-! ## Claims -/

/-- Claim C7 (counterexample): the claim's velar/sibilant set includes 'ц',
but the source's `HUSH` does not, so for the stem "отц" and ending "ы" no
substitution happens: the result is "отцы", not the "отци" the claim's set
would force. -/
theorem c7_counterexample :
    HUSH.contains 'ц' = false ∧
    apply_orthography "отц".data "ы".data = "отц".data ++ "ы".data ∧
    "отц".data ++ "ы".data ≠ "отц".data ++ "и".data := by decide

/-- Claim C7 (amended): the orthography normalizer returns `stem ++ ending`
when either argument is empty; otherwise a leading 'ы' of the ending is
replaced by 'и' exactly when the stem's last character lies in the fixed
set {г,к,х,ж,ч,ш,щ} (the source's `HUSH`, which does not contain 'ц');
in all other cases it returns the plain concatenation.  In particular
`apply_orthography "рог" "ы" = "роги"` and
`apply_orthography "стол" "ы" = "столы"`. -/
theorem c7_orthography_amended :
    (∀ stem ending : Word, apply_orthography stem ending =
      if stem = [] ∨ ending = [] then stem ++ ending
      else if ending.head? = some 'ы' ∧ HUSH.contains (lastChD stem) = true
      then stem ++ ('и' :: ending.tail)
      else stem ++ ending) ∧
    apply_orthography "рог".data "ы".data = "роги".data ∧
    apply_orthography "стол".data "ы".data = "столы".data := by
  refine ⟨?_, by decide, by decide⟩
  intro stem ending
  cases ending with
  | nil => simp [apply_orthography]
  | cons first rest =>
    by_cases hs : stem = []
    · simp [apply_orthography, hs]
    · simp only [apply_orthography, hs, if_false, List.head?, List.tail,
        false_or, Option.some.injEq]
      rfl

/-- Claim C8: the casing normalizer uppercases the whole text when the
reference starts uppercase and is entirely uppercase with length > 1,
capitalizes each hyphen-delimited segment when the reference starts
uppercase otherwise, and lowercases the text when it does not; together
with the four concrete examples of the spec. -/
theorem c8_normalize_case :
    (∀ reference text : Word, normalize_case_like reference text =
      match reference with
      | [] => lowerW text
      | r0 :: _ =>
        if chIsUpper r0 = true then
          if strIsUpper reference = true ∧ 1 < reference.length then upperW text
          else List.intercalate ['-'] ((splitHyphen text).map capitalizeW)
        else lowerW text) ∧
    normalize_case_like "Иванов".data "иванова".data = "Иванова".data ∧
    normalize_case_like "СССР".data "ссср".data = "СССР".data ∧
    normalize_case_like "Санкт-Петербург".data "санкт-петербурга".data = "Санкт-Петербурга".data ∧
    normalize_case_like "жаба".data "ЖАБЫ".data = "жабы".data := by
  refine ⟨?_, by decide, by decide, by decide, by decide⟩
  intro reference text
  cases reference <;> rfl

/-- Claim C2 (counterexample): "меню" ends in 'ю', yet `classify` does not
return the indeclinable class for it — it falls through the whole cascade
to the masculine consonant-stem class — and `decline` does not return the
lemma unchanged (genitive singular is "менюа"). -/
theorem c2_counterexample :
    ends "меню".data ['ю'] = true ∧
    classify "меню".data = ("masc_cons".data, "меню".data) ∧
    decline "меню".data "gent".data "sing".data false none = Except.ok "менюа".data ∧
    "менюа".data ≠ "меню".data := by decide

/-- Claim C2 (amended): for every lemma ending in 'у' or 'э' (the source's
vowel gate lists 'ю' but its body never returns for it), `classify` returns
the indeclinable class with the lemma as stem, and `decline` returns the
lemma unchanged for every case, number, animacy and source tag. -/
theorem c2_indeclinable_u_e (lem : Word)
    (h : ends lem ['у'] = true ∨ ends lem ['э'] = true) :
    classify lem = ("indeclinable".data, lem) ∧
    ∀ (c n : Word) (a : Bool) (tag : Option Tag),
      decline lem c n a tag = Except.ok lem := by
  have hcl : classify lem = ("indeclinable".data, lem) := by
    unfold classify; rw [if_pos h]
  refine ⟨hcl, ?_⟩
  intro c n a tag
  unfold decline
  rw [hcl]
  have h1 : SCHEMAS_contains "indeclinable".data = false := by decide
  simp [h1]

/-- Claim C2 (amended) witness at the lemma "кенгуру". -/
theorem c2_indeclinable_u_e_witness :
    classify "кенгуру".data = ("indeclinable".data, "кенгуру".data) ∧
    decline "кенгуру".data "datv".data "plur".data true none = Except.ok "кенгуру".data := by
  have h := c2_indeclinable_u_e "кенгуру".data (Or.inl (by decide))
  exact ⟨h.1, h.2 _ _ _ _⟩

/-- Claim C10: a lemma longer than 3 characters ending in "ец" with a
non-vowel in the antepenultimate position is classified as
`masc_fleeting_ec` with the last two characters dropped; that class name
has no entry in `SCHEMAS`, so `decline` fails with the
unsupported-declension error for every case, number, animacy and tag —
the heuristic decliner can never produce a form for such a lemma. -/
theorem c10_fleeting_ec_unsupported (lem : Word)
    (h1 : 3 < lem.length) (h2 : ends lem ['е', 'ц'] = true)
    (h3 : vowelsRu.contains (antepenult lem) = false) :
    classify lem = ("masc_fleeting_ec".data, pyDropRight lem 2) ∧
    SCHEMAS_contains "masc_fleeting_ec".data = false ∧
    ∀ (c n : Word) (a : Bool) (tag : Option Tag),
      decline lem c n a tag = Except.error DeclErr.unsupportedDeclension := by
  have h2' : pre ['ц', 'е'] lem.reverse = true := h2
  obtain ⟨t1, hr1, hp1⟩ := pre_true_cases h2'
  obtain ⟨t2, hr2, _⟩ := pre_true_cases hp1
  subst hr2
  have notEnds1 : ∀ x : Char, x ≠ 'ц' → ends lem [x] = false := by
    intro x hx
    show pre [x] lem.reverse = false
    rw [hr1]
    simp [pre, hx]
  have notEnds2 : ∀ x y : Char, y ≠ 'ц' → ends lem [x, y] = false := by
    intro x y hy
    show pre [y, x] lem.reverse = false
    rw [hr1]
    simp [pre, hy]
  have h3' : antepenult lem ∉ vowelsRu := by simpa using h3
  have hcl : classify lem = ("masc_fleeting_ec".data, pyDropRight lem 2) := by
    simp [classify,
      notEnds1 'у' (by decide), notEnds1 'э' (by decide), notEnds1 'и' (by decide),
      notEnds2 'и' 'я' (by decide), notEnds2 'и' 'е' (by decide),
      notEnds2 'м' 'я' (by decide), notEnds2 'о' 'к' (by decide),
      notEnds2 'о' 'л' (by decide), h1, h2, h3']
  refine ⟨hcl, by decide, ?_⟩
  intro c n a tag
  unfold decline
  rw [hcl]
  have hS : SCHEMAS_contains "masc_fleeting_ec".data = false := by decide
  have hne : "masc_fleeting_ec".data ≠ "indeclinable".data := by decide
  simp [hS, hne]

/-- Claim C10 witness at the lemma "гнилец". -/
theorem c10_fleeting_ec_unsupported_witness :
    classify "гнилец".data = ("masc_fleeting_ec".data, pyDropRight "гнилец".data 2) ∧
    decline "гнилец".data "nomn".data "sing".data false none =
      Except.error DeclErr.unsupportedDeclension := by
  have h := c10_fleeting_ec_unsupported "гнилец".data (by decide) (by decide) (by decide)
  exact ⟨h.1, h.2.2 _ _ _ _⟩

/-- Claim C5: for a lemma classified into the masculine consonant-stem
class (whose schema has a null accusative entry), the inanimate accusative
equals the nominative and the animate accusative equals the genitive, in
both numbers. -/
theorem c5_masc_cons_accusative (lem n : Word)
    (hc : (classify lem).1 = "masc_cons".data)
    (hn : n = "sing".data ∨ n = "plur".data) :
    decline lem "accs".data n false none = decline lem "nomn".data n false none ∧
    decline lem "accs".data n true none = decline lem "gent".data n true none := by
  obtain ⟨st, hst⟩ : ∃ st, classify lem = ("masc_cons".data, st) :=
    ⟨(classify lem).2, by rw [← hc]⟩
  rcases hn with rfl | rfl <;>
    exact ⟨by unfold decline; rw [hst]; rfl, by unfold decline; rw [hst]; rfl⟩

/-- Claim C5 witness at the lemma "рог". -/
theorem c5_masc_cons_accusative_witness :
    (classify "рог".data).1 = "masc_cons".data ∧
    (decline "рог".data "accs".data "sing".data false none =
       decline "рог".data "nomn".data "sing".data false none ∧
     decline "рог".data "accs".data "sing".data true none =
       decline "рог".data "gent".data "sing".data true none) :=
  ⟨by decide, c5_masc_cons_accusative "рог".data "sing".data (by decide) (Or.inl rfl)⟩

/-- Claim C6: for a lemma classified into the feminine -я class, the
genitive plural is stem + "ей" when the source tag carries the masculine
gender grammeme and stem + "ь" (the schema default) otherwise. -/
theorem c6_fem_ya_genitive_plural (lem st : Word) (animate : Bool) (tag : Tag)
    (hc : classify lem = ("fem_ya".data, st)) :
    decline lem "gent".data "plur".data animate (some tag) =
      Except.ok (st ++ (if tag.grammemes.contains "masc".data = true
                        then "ей".data else "ь".data)) := by
  unfold decline
  rw [hc]
  by_cases hm : tag.grammemes.contains "masc".data = true
  · simp only [hm]
    cases st with
    | nil => rfl
    | cons c cs => rfl
  · have hm' : tag.grammemes.contains "masc".data = false := by
      simpa using hm
    simp only [hm']
    cases st with
    | nil => rfl
    | cons c cs => rfl

/-- Claim C6 witness at the lemma "Костя" with and without a masculine tag. -/
theorem c6_fem_ya_genitive_plural_witness :
    decline "Костя".data "gent".data "plur".data false (some (Tag.mk ["masc".data])) =
      Except.ok "Костей".data ∧
    decline "Костя".data "gent".data "plur".data false (some (Tag.mk [])) =
      Except.ok "Кость".data := by
  have h1 := c6_fem_ya_genitive_plural "Костя".data "Кост".data false
    (Tag.mk ["masc".data]) (by decide)
  have h2 := c6_fem_ya_genitive_plural "Костя".data "Кост".data false
    (Tag.mk []) (by decide)
  exact ⟨h1.trans (by decide), h2.trans (by decide)⟩

/-- Claim C3: when the manual-decliner attempt raises (swallowed to an
empty result) and the target-form matching raises too, the fallback chain
returns the literal target lemma as the only surface, and the emission
loop still produces exactly one row whose target is the casing-normalized
target lemma — nothing propagates past this point (the chain is a total
function by construction). -/
theorem c3_literal_fallback (pos : Word) (known : Bool) (c0 n0 tgt : Word)
    (animate : Bool) (tag : Tag) (mres : Except Unit (List Word))
    (sfWord tagStr : Word) (seen : List (Word × Word × Word)) (rows : List FormRow)
    (e : DeclErr)
    (hpos : pos = "NOUN".data) (hknown : known = false)
    (hdec : decline tgt c0 n0 animate (some tag) = Except.error e)
    (hc0 : c0 ≠ []) (hn0 : n0 ≠ [])
    (hm : mres = Except.error ())
    (hseen : (sfWord, normalize_case_like tgt tgt, tagStr) ∉ seen) :
    formTargetWords (declinerAttempt pos known (some c0) (some n0) tgt animate tag) mres tgt
      = [tgt] ∧
    (emitRows tgt sfWord tagStr
        (formTargetWords (declinerAttempt pos known (some c0) (some n0) tgt animate tag) mres tgt)
        (seen, rows)).2
      = rows ++ [FormRow.mk sfWord (normalize_case_like tgt tgt) tagStr] := by
  subst hpos hknown hm
  have hda : declinerAttempt "NOUN".data false (some c0) (some n0) tgt animate tag = [] := by
    simp [declinerAttempt, hc0, hn0, hdec]
  have hft : formTargetWords [] (Except.error ()) tgt = [tgt] := rfl
  rw [hda, hft]
  refine ⟨rfl, ?_⟩
  simp [emitRows, hseen]

/-- Claim C3 witness: a concrete form where the decliner raises (the
target "гнилец" is a fleeting-ец lemma, C10) and the matcher raises. -/
theorem c3_literal_fallback_witness :
    formTargetWords
        (declinerAttempt "NOUN".data false (some "nomn".data) (some "sing".data)
          "гнилец".data false (Tag.mk []))
        (Except.error ()) "гнилец".data = ["гнилец".data] ∧
    (emitRows "гнилец".data "гурман".data "NOUN,inan,masc sing,nomn".data
        (formTargetWords
          (declinerAttempt "NOUN".data false (some "nomn".data) (some "sing".data)
            "гнилец".data false (Tag.mk []))
          (Except.error ()) "гнилец".data) ([], [])).2 =
      [FormRow.mk "гурман".data (normalize_case_like "гнилец".data "гнилец".data)
        "NOUN,inan,masc sing,nomn".data] :=
  c3_literal_fallback "NOUN".data false "nomn".data "sing".data "гнилец".data false
    (Tag.mk []) (Except.error ()) "гурман".data "NOUN,inan,masc sing,nomn".data [] []
    DeclErr.unsupportedDeclension rfl rfl (by decide) (by decide) (by decide) rfl
    (by decide)

/-- Claim C1: for a key already stored in the priority map, one row's
update replaces the stored entry by the row's target at the row's computed
priority exactly when the row addresses the key and its priority is
strictly greater than the stored one; otherwise the stored entry is kept
unchanged, and in all cases the stored priority never decreases. -/
theorem c1_collision_update (m : PrioMap) (row : FormRow) (k v : Word) (p : Nat)
    (h : m k = some (v, p)) :
    (rowUpdate m row k =
      if k = lowerW row.source ∧ p < get_form_priority row.tag
      then some (row.target, get_form_priority row.tag)
      else some (v, p)) ∧
    ∀ v' p', rowUpdate m row k = some (v', p') → p ≤ p' := by
  have hch := rowUpdate_apply m row k v p h
  refine ⟨hch, ?_⟩
  intro v' p' h'
  rw [hch] at h'
  by_cases hcond : k = lowerW row.source ∧ p < get_form_priority row.tag
  · rw [if_pos hcond] at h'
    simp only [Option.some.injEq, Prod.mk.injEq] at h'
    exact h'.2 ▸ le_of_lt hcond.2
  · rw [if_neg hcond] at h'
    simp only [Option.some.injEq, Prod.mk.injEq] at h'
    exact h'.2 ▸ le_refl p

/-- Claim C1 witness: a stored entry at priority 5 is overwritten by a
genitive-singular row (priority 9 + 20). -/
theorem c1_collision_update_witness :
    rowUpdate (fun k => if k = "кот".data then some ("пёс".data, 5) else none)
        (FormRow.mk "Кот".data "Пса".data "NOUN,anim,masc sing,gent".data) "кот".data =
      some ("Пса".data, 29) := by
  have h := c1_collision_update
    (fun k => if k = "кот".data then some ("пёс".data, 5) else none)
    (FormRow.mk "Кот".data "Пса".data "NOUN,anim,masc sing,gent".data)
    "кот".data "пёс".data 5 (by decide)
  rw [h.1]
  decide

/-- Claim C4: a processed pair (both fields present and nonempty after
trimming) leaves its lowercased trimmed source key present in the final
map of the whole run; when the key is fresh the pair seeds it with the
casing-normalized literal target at priority 0 (also when no rows were
generated); and a generated row never changes a stored entry without a
strictly higher priority. -/
theorem c4_literal_pair_guaranteed (entries : List (Record × List FormRow))
    (r : Record) (rows : List FormRow) (s0 t0 : Word)
    (hmem : (r, rows) ∈ entries) (hs : r.source = some s0) (ht : r.target = some t0)
    (hs' : trimW s0 ≠ []) (ht' : trimW t0 ≠ []) :
    ((runPairs emptyMap entries) (lowerW (trimW s0))).isSome = true ∧
    (∀ m : PrioMap, m (lowerW (trimW s0)) = none →
      processRecord m r [] (lowerW (trimW s0)) =
        some (normalize_case_like (trimW t0) (trimW t0), 0)) ∧
    (∀ (m : PrioMap) (v : Word) (p : Nat) (row : FormRow),
      m (lowerW (trimW s0)) = some (v, p) →
      ¬ p < get_form_priority row.tag →
      rowUpdate m row (lowerW (trimW s0)) = some (v, p)) := by
  have hs0 : s0 ≠ [] := fun hc => hs' (by rw [hc]; rfl)
  have ht0 : t0 ≠ [] := fun hc => ht' (by rw [hc]; rfl)
  refine ⟨?_, ?_, ?_⟩
  · obtain ⟨l1, l2, rfl⟩ := List.append_of_mem hmem
    show ((List.foldl (fun m e => processRecord m e.1 e.2) emptyMap
        (l1 ++ (r, rows) :: l2)) (lowerW (trimW s0))).isSome = true
    rw [List.foldl_append, List.foldl_cons]
    exact runPairs_isSome l2 _ _ (processRecord_seeds_key r s0 t0 hs ht hs0 ht0)
  · intro m hm
    rcases r with ⟨os, ot⟩
    cases hs; cases ht
    simp [processRecord, hs0, ht0, hm]
  · intro m v p row hmk hnp
    rw [rowUpdate_apply m row _ v p hmk, if_neg (fun hc => hnp hc.2)]

/-- Claim C4 witness at the pair {Жаба → Ропуха} with no generated rows. -/
theorem c4_literal_pair_guaranteed_witness :
    ((runPairs emptyMap [(Record.mk (some "Жаба".data) (some "Ропуха".data), [])])
       (lowerW (trimW "Жаба".data))).isSome = true :=
  (c4_literal_pair_guaranteed
    [(Record.mk (some "Жаба".data) (some "Ропуха".data), [])]
    (Record.mk (some "Жаба".data) (some "Ропуха".data)) []
    "Жаба".data "Ропуха".data (by decide) rfl rfl (by decide) (by decide)).1

/-- Claim C9 (counterexample): a record whose source is whitespace-only is
empty after trimming, yet it is not skipped — it seeds the empty key in
the replacement map. -/
theorem c9_counterexample :
    trimW " ".data = [] ∧
    processRecord emptyMap (Record.mk (some " ".data) (some "x".data)) [] [] =
      some ("x".data, 0) := by decide

/-- Claim C9 (amended): a record is skipped (the map is unchanged, no row
processed) whenever its source or target field is missing or empty
*before* trimming; the truthiness check precedes `strip()`, so a
whitespace-only field is processed with empty trimmed text. -/
theorem c9_skip_before_trim (m : PrioMap) (rows : List FormRow) (r : Record)
    (h : r.source = none ∨ r.target = none ∨ r.source = some [] ∨ r.target = some []) :
    processRecord m r rows = m := by
  rcases r with ⟨os, ot⟩
  rcases h with h | h | h | h
  · cases h
    cases ot with
    | none => rfl
    | some t0 => rfl
  · cases h
    cases os with
    | none => rfl
    | some s0 => rfl
  · cases h
    cases ot with
    | none => rfl
    | some t0 => simp [processRecord]
  · cases h
    cases os with
    | none => rfl
    | some s0 => simp [processRecord]

/-- Claim C9 (amended) witness: a record with a missing source is skipped. -/
theorem c9_skip_before_trim_witness :
    processRecord emptyMap (Record.mk none (some "x".data)) [] = emptyMap :=
  c9_skip_before_trim emptyMap [] (Record.mk none (some "x".data)) (Or.inl rfl)
